import Mathlib

/-
  Verification of the synthesis-benchmark harness (src/evals/benchmark_synthesis.py,
  src/evals/synthesis_eval.py).  The Python program is shallowly embedded below:
  pure string/JSON formatting becomes Lean string functions, the benchmark loop
  becomes a fold over an explicit run state, and the external LLM backend is an
  oracle parameter assigning an outcome to each (scenario index, model) cell.
  Floating-point numbers are modelled as rationals.
-/

set_option autoImplicit false
set_option maxHeartbeats 1000000
set_option maxRecDepth 16000

namespace MarkM8

/-- One strength item of a grader's feedback, as in the TEST_CASES fixtures:
keys "title", "description", "evidence" in insertion order. -/
structure StrengthItem where
  title : String
  description : String
  evidence : String
deriving DecidableEq

/-- One improvement item of a grader's feedback: keys "title", "description",
"suggestion" in insertion order. -/
structure ImprovementItem where
  title : String
  description : String
  suggestion : String
deriving DecidableEq

/-- The nested feedback body of one grader: ordered strengths then improvements. -/
structure Feedback where
  strengths : List StrengthItem
  improvements : List ImprovementItem
deriving DecidableEq

/-- One grader record of a test case: model identifier, integer percentage,
nested feedback. -/
structure GraderRecord where
  model : String
  percentage : Nat
  feedback : Feedback
deriving DecidableEq

/-- One test case of the corpus (an element of TEST_CASES). -/
structure Scenario where
  id : String
  essay_title : String
  essay_content : String
  rubric : String
  grader_feedback : List GraderRecord
deriving DecidableEq

/-- The candidate model list SYNTHESIS_MODELS of the source. -/
def SYNTHESIS_MODELS : List String :=
  ["anthropic/claude-opus-4.5", "anthropic/claude-sonnet-4",
   "openai/gpt-5.2", "google/gemini-3-flash-preview"]

/-- Lowercase hexadecimal digit, used by the JSON unicode escape. -/
def hexDigit (n : Nat) : Char :=
  if n < 10 then Char.ofNat (48 + n) else Char.ofNat (87 + n)

/-- Four-digit JSON unicode escape sequence, as produced by json.dumps with
ensure_ascii. -/
def uEscape (n : Nat) : String :=
  String.mk [Char.ofNat 92, Char.ofNat 117,
    hexDigit (n / 4096 % 16), hexDigit (n / 256 % 16), hexDigit (n / 16 % 16), hexDigit (n % 16)]

/-- JSON escaping of a single character, mirroring Python json.dumps defaults
(ensure_ascii=True). -/
def escapeChar (c : Char) : String :=
  if c = Char.ofNat 34 then "\\\""
  else if c = Char.ofNat 92 then "\\\\"
  else if c = Char.ofNat 10 then "\\n"
  else if c = Char.ofNat 9 then "\\t"
  else if c = Char.ofNat 13 then "\\r"
  else if c = Char.ofNat 8 then "\\b"
  else if c = Char.ofNat 12 then "\\f"
  else if c.toNat < 32 then uEscape c.toNat
  else if c.toNat < 127 then String.mk [c]
  else if c.toNat < 65536 then uEscape c.toNat
  else uEscape (55296 + (c.toNat - 65536) / 1024) ++ uEscape (56320 + (c.toNat - 65536) % 1024)

/-- JSON escaping of a string body. -/
def jsonEscape (s : String) : String :=
  String.join (s.data.map escapeChar)

/-- JSON string literal rendering. -/
def jsonStr (s : String) : String :=
  "\"" ++ jsonEscape s ++ "\""

/-- Separator-joining of strings, the embedding of Python str.join. -/
def joinSep (sep : String) : List String → String
  | [] => ""
  | [x] => x
  | x :: y :: rest => x ++ sep ++ joinSep sep (y :: rest)

/-- Rendering of one strength item as json.dumps(..., indent=2) renders it at
array depth 2 (item braces at indent 4, keys at indent 6). -/
def strengthJson (it : StrengthItem) : String :=
  "\x7b\n      \"title\": " ++ jsonStr it.title ++
  ",\n      \"description\": " ++ jsonStr it.description ++
  ",\n      \"evidence\": " ++ jsonStr it.evidence ++ "\n    \x7d"

/-- Rendering of one improvement item, same shape with a "suggestion" key. -/
def improvementJson (it : ImprovementItem) : String :=
  "\x7b\n      \"title\": " ++ jsonStr it.title ++
  ",\n      \"description\": " ++ jsonStr it.description ++
  ",\n      \"suggestion\": " ++ jsonStr it.suggestion ++ "\n    \x7d"

/-- Rendering of a JSON array of pre-rendered items at indent 2, as json.dumps
with indent=2 does: an empty array prints as a bare bracket pair. -/
def arrJson4 : List String → String
  | [] => "[]"
  | e :: rest => "[\n" ++ joinSep (",\n") ((e :: rest).map (fun x => "    " ++ x)) ++ "\n  ]"

/-- Embedding of json.dumps(grader feedback, indent=2): top-level object with
the "strengths" and "improvements" keys in insertion order. -/
def fbJson (fb : Feedback) : String :=
  "\x7b\n  \"strengths\": " ++ arrJson4 (fb.strengths.map strengthJson) ++
  ",\n  \"improvements\": " ++ arrJson4 (fb.improvements.map improvementJson) ++ "\n\x7d"

/-- The model/percentage attribute text of one grader's XML tag. -/
def graderAttr (g : GraderRecord) : String :=
  "model=\"" ++ g.model ++ "\" percentage=\"" ++ toString g.percentage ++ "\""

/-- Opening text of the numbered grader tag, up to the attributes. -/
def blockPre (i : Nat) : String :=
  "<grader_" ++ toString i ++ " "

/-- Closing part of the numbered grader block: the serialized feedback between
the end of the opening tag and the closing tag. -/
def blockPost (i : Nat) (g : GraderRecord) : String :=
  ">\n" ++ fbJson g.feedback ++ "\n</grader_" ++ toString i ++ ">"

/-- One grader block of format_grader_feedback_xml. -/
def graderBlock (i : Nat) (g : GraderRecord) : String :=
  blockPre i ++ graderAttr g ++ blockPost i g

/-- Pairing of list elements with indices counting from i, the embedding of
Python enumerate(xs, i). -/
def numberFrom (i : Nat) : List GraderRecord → List (Nat × GraderRecord)
  | [] => []
  | g :: gs => (i, g) :: numberFrom (i + 1) gs

/-- Embedding of format_grader_feedback_xml: one labeled block per grader,
numbered from 1, joined with blank lines. -/
def format_grader_feedback_xml (gs : List GraderRecord) : String :=
  joinSep ("\n\n") ((numberFrom 1 gs).map (fun p => graderBlock p.1 p.2))

/-- Text of SYNTHESIS_PROMPT_TEMPLATE before the grader_feedback placeholder,
with num_graders, essay_title, rubric and essay_content substituted. -/
def promptHeader (s : Scenario) : String :=
  "You are synthesizing feedback from " ++ toString s.grader_feedback.length ++
  " independent essay graders.\n\n<assignment>\n<title>" ++ s.essay_title ++
  "</title>\n</assignment>\n\n<rubric>\n" ++ s.rubric ++
  "\n</rubric>\n\n<essay_excerpt>\n" ++ s.essay_content ++
  "\n</essay_excerpt>\n\n<grader_feedback>\n"

/-- Text of SYNTHESIS_PROMPT_TEMPLATE after the grader_feedback placeholder. -/
def promptTail : String :=
  "\n</grader_feedback>\n\n<task>\nSynthesize the feedback from all graders into a single, coherent response.\n\n1. STRENGTHS: Select the 3-4 most impactful strengths. Prefer those:\n   - Mentioned by multiple graders\n   - With direct quotes/evidence from the essay\n   - Most relevant to the rubric criteria\n\n2. IMPROVEMENTS: Merge overlapping suggestions into 3-4 most actionable items:\n   - Combine similar points (e.g., \"transitions\" and \"paragraph flow\" are related)\n   - Prioritize based on rubric weighting\n   - Keep suggestions specific and actionable\n\n3. LANGUAGE TIPS: Consolidate into 2-3 unique tips, removing duplicates.\n\nBe concise. Preserve the best specific examples and evidence from the original feedback.\nOutput in markdown format with ## headers for each section.\n</task>"

/-- Embedding of SYNTHESIS_PROMPT_TEMPLATE.format(...) as run_benchmark builds
the prompt for one test case. -/
def renderPrompt (s : Scenario) : String :=
  promptHeader s ++ format_grader_feedback_xml s.grader_feedback ++ promptTail

/-- Embedding of the dictionary OpenRouterClient.generate returns: content,
wall-clock seconds, optional cost, optional token count. -/
structure GenResult where
  content : String
  time_seconds : Rat
  cost : Option Rat
  tokens : Option Rat
deriving DecidableEq

/-- Embedding of the response-parsing part of OpenRouterClient.generate: given
the completion text, the measured elapsed time and the numeric fields of the
usage object of the backend response, build the returned record.  The cost is
set only when the usage dictionary has a "cost" key; total_tokens is read with
a defaulting get. -/
def clientGenerate (content : String) (elapsed : Rat) (usage : List (String × Rat)) : GenResult :=
  { content := content
    time_seconds := elapsed
    cost := match usage.lookup ("cost") with
      | some v => some v
      | none => none
    tokens := usage.lookup ("total_tokens") }

/-- Outcome of the external calls of one benchmark cell: the generate call and
the two judge metric measurements, each either a value or a raised exception
message. -/
structure CellResult where
  gen : Except String GenResult
  sel : Except String Rat
  qual : Except String Rat

/-- The four entries run_benchmark appends to the per-model lists for one cell. -/
structure CellRecord where
  time : Option Rat
  cost : Option Rat
  selection : Option Rat
  quality : Option Rat
deriving DecidableEq

/-- Embedding of the try/except body of run_benchmark for one cell: on any
exception from generation or either judge measurement, all four entries are
recorded as null; otherwise the time, the cost defaulted to 0 by the Python
expression (result cost or 0), and both scores are recorded.  The second
component counts how many judge metric measurements were executed. -/
def execCell (c : CellResult) : CellRecord × Nat :=
  match c.gen with
  | Except.error _ => (⟨none, none, none, none⟩, 0)
  | Except.ok g =>
    match c.sel with
    | Except.error _ => (⟨none, none, none, none⟩, 1)
    | Except.ok s =>
      match c.qual with
      | Except.error _ => (⟨none, none, none, none⟩, 2)
      | Except.ok q => (⟨some g.time_seconds, some (g.cost.getD 0), some s, some q⟩, 2)

/-- A cell is successful when neither generation nor either judge call raises. -/
def cellOk (c : CellResult) : Bool :=
  match c.gen, c.sel, c.qual with
  | Except.ok _, Except.ok _, Except.ok _ => true
  | _, _, _ => false

/-- The per-model storage of run_benchmark: four parallel lists, one entry per
processed test case, null marking a failed cell. -/
structure ModelRecord where
  times : List (Option Rat)
  costs : List (Option Rat)
  selection : List (Option Rat)
  quality : List (Option Rat)
deriving DecidableEq

/-- Fresh empty storage for one model. -/
def emptyRecord : ModelRecord := ⟨[], [], [], []⟩

/-- Appending one cell's entries to a model's four lists. -/
def appendCell (r : ModelRecord) (e : CellRecord) : ModelRecord :=
  ⟨r.times ++ [e.time], r.costs ++ [e.cost],
   r.selection ++ [e.selection], r.quality ++ [e.quality]⟩

/-- Insert-or-overwrite on an association list, the embedding of Python dict
key assignment (first binding position is kept). -/
def dictInsert (k : String) (v : ModelRecord) :
    List (String × ModelRecord) → List (String × ModelRecord)
  | [] => [(k, v)]
  | (k1, v1) :: rest => if k1 = k then (k1, v) :: rest else (k1, v1) :: dictInsert k v rest

/-- In-place update of the value bound to an existing key, the embedding of
mutating results[model]. -/
def dictUpdate (k : String) (f : ModelRecord → ModelRecord) :
    List (String × ModelRecord) → List (String × ModelRecord)
  | [] => []
  | (k1, v1) :: rest => if k1 = k then (k1, f v1) :: rest else (k1, v1) :: dictUpdate k f rest

/-- Embedding of the results dict comprehension of run_benchmark. -/
def initResults (models : List String) : List (String × ModelRecord) :=
  models.foldl (fun acc m => dictInsert m emptyRecord acc) []

/-- Observable state of a run: the results dict, the generate calls dispatched
(model and exact prompt string, in call order), and the judge measurements
executed (scenario index, model, metric index, in call order). -/
structure RunState where
  results : List (String × ModelRecord)
  genCalls : List (String × String)
  judgeCalls : List (Nat × String × Nat)

/-- The external world of a run: the outcome of each (scenario index, model)
cell's backend and judge calls. -/
def Oracle : Type := Nat → String → CellResult

/-- Processing of one (model, scenario) cell inside the inner loop. -/
def doCell (oracle : Oracle) (i : Nat) (prompt : String) (st : RunState) (m : String) : RunState :=
  let e := execCell (oracle i m)
  { results := dictUpdate m (fun r => appendCell r e.1) st.results
    genCalls := st.genCalls ++ [(m, prompt)]
    judgeCalls := st.judgeCalls ++ (List.range e.2).map (fun k => (i, m, k)) }

/-- Processing of one test case: the prompt is built once, then every candidate
model runs against that same string, in list order. -/
def doScenario (oracle : Oracle) (models : List String) (st : RunState) (i : Nat) (t : Scenario) :
    RunState :=
  models.foldl (doCell oracle i (renderPrompt t)) st

/-- The outer loop over the corpus, carrying the position of the next test case. -/
def runFrom (oracle : Oracle) (models : List String) :
    Nat → List Scenario → RunState → RunState
  | _, [], st => st
  | i, t :: rest, st => runFrom oracle models (i + 1) rest (doScenario oracle models st i t)

/-- Embedding of run_benchmark: the OPENROUTER_API_KEY environment variable is
read first and a missing or empty value aborts the run before anything else
happens (the Python function prints an error and returns, dispatching no call);
otherwise the full scenario-major, model-minor loop executes. -/
def run_benchmark (env : List (String × String)) (oracle : Oracle)
    (models : List String) (tests : List Scenario) : Option RunState :=
  match env.lookup ("OPENROUTER_API_KEY") with
  | none => none
  | some key =>
    if key = "" then none
    else some (runFrom oracle models 0 tests ⟨initResults models, [], []⟩)

/-- The summary row printed for one model: mean selection score, mean quality
score, mean time, total cost. -/
structure ModelSummary where
  avg_sel : Rat
  avg_qual : Rat
  avg_time : Rat
  total_cost : Rat
deriving DecidableEq

/-- The values of the non-null entries of one list, as the comprehensions over
r["..."] with a None test produce them. -/
def filterSome (xs : List (Option Rat)) : List Rat := xs.filterMap id

/-- Left-fold sum, the embedding of Python sum(). -/
def listSum (xs : List Rat) : Rat := xs.foldl (fun a b => a + b) 0

/-- Embedding of the summary computation of run_benchmark for one model:
averages of the valid entries guarded by emptiness (yielding 0 on an empty
filtered list), and the plain sum of the valid costs. -/
def summarizeRecord (r : ModelRecord) : ModelSummary :=
  let valid_sel := filterSome r.selection
  let valid_qual := filterSome r.quality
  let valid_times := filterSome r.times
  let valid_costs := filterSome r.costs
  { avg_sel := if valid_sel = [] then 0 else listSum valid_sel / (valid_sel.length : Rat)
    avg_qual := if valid_qual = [] then 0 else listSum valid_qual / (valid_qual.length : Rat)
    avg_time := if valid_times = [] then 0 else listSum valid_times / (valid_times.length : Rat)
    total_cost := if valid_costs = [] then 0 else listSum valid_costs }

/-
  Characterization of the run loop.  The per-cell record and judge-call count,
  and the closed form of the per-model result lists produced by runFrom.
-/

/-- The four entries recorded for the cell (scenario i, model m). -/
def cellRec (oracle : Oracle) (i : Nat) (m : String) : CellRecord :=
  (execCell (oracle i m)).1

/-- The elapsed time of a cell's generation, defaulting to 0 when it raised. -/
def genTime (c : CellResult) : Rat :=
  match c.gen with
  | Except.ok g => g.time_seconds
  | Except.error _ => 0

/-- The reported cost of a cell's generation, when the call succeeded and the
backend reported one. -/
def genCost (c : CellResult) : Option Rat :=
  match c.gen with
  | Except.ok g => g.cost
  | Except.error _ => none

/-- The selection score of a cell, defaulting to 0 when the judge raised. -/
def selScore (c : CellResult) : Rat :=
  match c.sel with
  | Except.ok s => s
  | Except.error _ => 0

/-- The quality score of a cell, defaulting to 0 when the judge raised. -/
def qualScore (c : CellResult) : Rat :=
  match c.qual with
  | Except.ok q => q
  | Except.error _ => 0

/-- Closed form of the entries execCell records, split on cell success. -/
theorem execCell_fst (c : CellResult) :
    (execCell c).1 =
      if cellOk c then
        ⟨some (genTime c), some ((genCost c).getD 0), some (selScore c), some (qualScore c)⟩
      else ⟨none, none, none, none⟩ := by
  obtain ⟨g, s, q⟩ := c
  cases g <;> cases s <;> cases q <;>
    simp [execCell, cellOk, genTime, genCost, selScore, qualScore]

/-- Closed form of the entries recorded for one cell of the run. -/
theorem cellRec_eq (oracle : Oracle) (i : Nat) (m : String) :
    cellRec oracle i m =
      if cellOk (oracle i m) then
        ⟨some (genTime (oracle i m)), some ((genCost (oracle i m)).getD 0),
         some (selScore (oracle i m)), some (qualScore (oracle i m))⟩
      else ⟨none, none, none, none⟩ :=
  execCell_fst (oracle i m)

/-- Componentwise concatenation of two model records. -/
def appendRecord (r e : ModelRecord) : ModelRecord :=
  ⟨r.times ++ e.times, r.costs ++ e.costs,
   r.selection ++ e.selection, r.quality ++ e.quality⟩

/-- The record a model accumulates over n scenarios starting at index i0. -/
def expectedRecord (oracle : Oracle) (m : String) (i0 n : Nat) : ModelRecord :=
  ⟨(List.range n).map (fun j => (cellRec oracle (i0 + j) m).time),
   (List.range n).map (fun j => (cellRec oracle (i0 + j) m).cost),
   (List.range n).map (fun j => (cellRec oracle (i0 + j) m).selection),
   (List.range n).map (fun j => (cellRec oracle (i0 + j) m).quality)⟩

theorem lookup_dictUpdate_self (k : String) (f : ModelRecord → ModelRecord)
    (l : List (String × ModelRecord)) :
    (dictUpdate k f l).lookup k = (l.lookup k).map f := by
  induction l with
  | nil => rfl
  | cons p rest ih =>
    obtain ⟨k1, v1⟩ := p
    by_cases h : k1 = k
    · subst h
      simp [dictUpdate, List.lookup]
    · have h2 : (k == k1) = false := by
        simp [Ne.symm h]
      simp [dictUpdate, h, List.lookup, h2, ih]

theorem lookup_dictUpdate_ne (k m : String) (f : ModelRecord → ModelRecord)
    (l : List (String × ModelRecord)) (h : m ≠ k) :
    (dictUpdate k f l).lookup m = l.lookup m := by
  induction l with
  | nil => rfl
  | cons p rest ih =>
    obtain ⟨k1, v1⟩ := p
    by_cases h1 : k1 = k
    · subst h1
      have h2 : (m == k1) = false := by simp [h]
      simp [dictUpdate, List.lookup, h2]
    · simp [dictUpdate, h1, List.lookup, ih]

theorem lookup_dictInsert_self (k : String) (v : ModelRecord)
    (l : List (String × ModelRecord)) :
    (dictInsert k v l).lookup k = some v := by
  induction l with
  | nil => simp [dictInsert, List.lookup]
  | cons p rest ih =>
    obtain ⟨k1, v1⟩ := p
    by_cases h : k1 = k
    · subst h
      simp [dictInsert, List.lookup]
    · have h2 : (k == k1) = false := by simp [Ne.symm h]
      simp [dictInsert, h, List.lookup, h2, ih]

theorem lookup_dictInsert_ne (k m : String) (v : ModelRecord)
    (l : List (String × ModelRecord)) (h : m ≠ k) :
    (dictInsert k v l).lookup m = l.lookup m := by
  induction l with
  | nil =>
    have h2 : (m == k) = false := by simp [h]
    simp [dictInsert, List.lookup, h2]
  | cons p rest ih =>
    obtain ⟨k1, v1⟩ := p
    by_cases h1 : k1 = k
    · subst h1
      have h2 : (m == k1) = false := by simp [h]
      simp [dictInsert, List.lookup, h2]
    · simp [dictInsert, h1, List.lookup, ih]

/-- Lookup in the freshly initialized results dict. -/
theorem initResults_lookup (models : List String) (m : String) :
    (initResults models).lookup m =
      if m ∈ models then some emptyRecord else none := by
  suffices h : ∀ acc : List (String × ModelRecord),
      (models.foldl (fun acc m => dictInsert m emptyRecord acc) acc).lookup m =
        if m ∈ models then some emptyRecord else acc.lookup m by
    simpa using h []
  induction models with
  | nil => intro acc; simp
  | cons m0 rest ih =>
    intro acc
    by_cases h : m = m0
    · subst h
      simp only [List.foldl_cons, ih]
      by_cases hr : m ∈ rest
      · simp [hr]
      · simp [hr, lookup_dictInsert_self]
    · simp only [List.foldl_cons, ih, lookup_dictInsert_ne _ _ _ _ h]
      simp [List.mem_cons, h]

/-- Effect of the inner model loop of one scenario on one model's binding. -/
theorem foldCell_results_lookup (oracle : Oracle) (i : Nat) (prompt : String)
    (models : List String) (hnd : models.Nodup) (m : String) :
    ∀ st : RunState,
      ((models.foldl (doCell oracle i prompt) st).results).lookup m =
        if m ∈ models then
          (st.results.lookup m).map (fun r => appendCell r (cellRec oracle i m))
        else st.results.lookup m := by
  induction models with
  | nil => intro st; simp
  | cons m0 rest ih =>
    intro st
    obtain ⟨hm0, hrest⟩ := List.nodup_cons.mp hnd
    by_cases h : m = m0
    · subst h
      simp only [List.foldl_cons, ih hrest]
      simp [hm0, doCell, lookup_dictUpdate_self, cellRec]
    · simp only [List.foldl_cons, ih hrest]
      have : (doCell oracle i prompt st m0).results.lookup m = st.results.lookup m := by
        simp [doCell, lookup_dictUpdate_ne _ _ _ _ h]
      simp [this, List.mem_cons, h]

/-- The inner model loop appends one generate call per model, in list order,
all carrying the same prompt string. -/
theorem foldCell_genCalls (oracle : Oracle) (i : Nat) (prompt : String)
    (models : List String) :
    ∀ st : RunState,
      (models.foldl (doCell oracle i prompt) st).genCalls =
        st.genCalls ++ models.map (fun m => (m, prompt)) := by
  induction models with
  | nil => intro st; simp
  | cons m0 rest ih =>
    intro st
    simp [List.foldl_cons, ih, doCell, List.append_assoc]

/-- Splitting off the first scenario of an expected record. -/
theorem expectedRecord_cons (oracle : Oracle) (m : String) (i0 n : Nat) :
    expectedRecord oracle m i0 (n + 1) =
      appendRecord ⟨[(cellRec oracle i0 m).time], [(cellRec oracle i0 m).cost],
        [(cellRec oracle i0 m).selection], [(cellRec oracle i0 m).quality]⟩
        (expectedRecord oracle m (i0 + 1) n) := by
  have key : ∀ g : Nat → Option Rat,
      (List.range (n + 1)).map (fun j => g (i0 + j)) =
        g i0 :: (List.range n).map (fun j => g (i0 + 1 + j)) := by
    intro g
    rw [List.range_succ_eq_map, List.map_cons, List.map_map]
    refine congrArg₂ _ (by rw [Nat.add_zero]) ?_
    apply List.map_congr_left
    intro a _
    show g (i0 + (a + 1)) = g (i0 + 1 + a)
    congr 1
    omega
  have h1 := key (fun x => (cellRec oracle x m).time)
  have h2 := key (fun x => (cellRec oracle x m).cost)
  have h3 := key (fun x => (cellRec oracle x m).selection)
  have h4 := key (fun x => (cellRec oracle x m).quality)
  simp only [expectedRecord, appendRecord, ModelRecord.mk.injEq, List.singleton_append]
  exact ⟨h1, h2, h3, h4⟩

/-- A model record is unchanged by appending an empty expected record. -/
theorem appendRecord_zero (oracle : Oracle) (m : String) (i0 : Nat) (r : ModelRecord) :
    appendRecord r (expectedRecord oracle m i0 0) = r := by
  simp [appendRecord, expectedRecord]

theorem appendRecord_cell (r : ModelRecord) (c : CellRecord) (e : ModelRecord) :
    appendRecord (appendCell r c) e =
      appendRecord r (appendRecord ⟨[c.time], [c.cost], [c.selection], [c.quality]⟩ e) := by
  simp [appendRecord, appendCell]

/-- Closed form of the per-model bindings after the outer scenario loop. -/
theorem runFrom_results_lookup (oracle : Oracle) (models : List String)
    (hnd : models.Nodup) (m : String) :
    ∀ (tests : List Scenario) (i0 : Nat) (st : RunState),
      ((runFrom oracle models i0 tests st).results).lookup m =
        if m ∈ models then
          (st.results.lookup m).map
            (fun r => appendRecord r (expectedRecord oracle m i0 tests.length))
        else st.results.lookup m := by
  intro tests
  induction tests with
  | nil =>
    intro i0 st
    by_cases h : m ∈ models
    · simp only [runFrom, h, if_true, List.length_nil]
      cases st.results.lookup m <;> simp [appendRecord_zero]
    · simp [runFrom, h]
  | cons t rest ih =>
    intro i0 st
    simp only [runFrom, ih]
    by_cases h : m ∈ models
    · have hsc : (doScenario oracle models st i0 t).results.lookup m =
          (st.results.lookup m).map (fun r => appendCell r (cellRec oracle i0 m)) := by
        simpa [doScenario, h] using
          foldCell_results_lookup oracle i0 (renderPrompt t) models hnd m st
      simp only [h, if_true, hsc, Option.map_map]
      cases st.results.lookup m with
      | none => simp
      | some r =>
        simp only [Option.map_some', List.length_cons, Function.comp_apply]
        rw [expectedRecord_cons, appendRecord_cell]
    · have hsc : (doScenario oracle models st i0 t).results.lookup m =
          st.results.lookup m := by
        simpa [doScenario, h] using
          foldCell_results_lookup oracle i0 (renderPrompt t) models hnd m st
      simp [h, hsc]

/-- Closed form of the generate-call trace of the outer loop. -/
theorem runFrom_genCalls (oracle : Oracle) (models : List String) :
    ∀ (tests : List Scenario) (i0 : Nat) (st : RunState),
      (runFrom oracle models i0 tests st).genCalls =
        st.genCalls ++
          (tests.map (fun t => models.map (fun m => (m, renderPrompt t)))).flatten := by
  intro tests
  induction tests with
  | nil => intro i0 st; simp [runFrom]
  | cons t rest ih =>
    intro i0 st
    simp only [runFrom, ih]
    have : (doScenario oracle models st i0 t).genCalls =
        st.genCalls ++ models.map (fun m => (m, renderPrompt t)) := by
      simpa [doScenario] using foldCell_genCalls oracle i0 (renderPrompt t) models st
    simp [this, List.append_assoc]

/-- A run that returns a state is exactly the full loop from fresh storage. -/
theorem run_benchmark_some (env : List (String × String)) (oracle : Oracle)
    (models : List String) (tests : List Scenario) (st : RunState)
    (hrun : run_benchmark env oracle models tests = some st) :
    st = runFrom oracle models 0 tests ⟨initResults models, [], []⟩ := by
  cases hkey : env.lookup ("OPENROUTER_API_KEY") with
  | none => simp [run_benchmark, hkey] at hrun
  | some key =>
    by_cases hk : key = ""
    · simp [run_benchmark, hkey, hk] at hrun
    · simp [run_benchmark, hkey, hk] at hrun
      exact hrun.symm

/-- A successful run gives every model of a duplicate-free model list exactly
the expected record over all scenarios. -/
theorem run_results_lookup (env : List (String × String)) (oracle : Oracle)
    (models : List String) (tests : List Scenario) (st : RunState) (m : String)
    (hnd : models.Nodup) (hm : m ∈ models)
    (hrun : run_benchmark env oracle models tests = some st) :
    st.results.lookup m = some (expectedRecord oracle m 0 tests.length) := by
  have hst := run_benchmark_some env oracle models tests st hrun
  subst hst
  rw [runFrom_results_lookup oracle models hnd m tests 0 _]
  simp [hm, initResults_lookup, appendRecord, expectedRecord, emptyRecord]

/-- Lengths of the four lists of an expected record. -/
theorem expectedRecord_length (oracle : Oracle) (m : String) (n : Nat) :
    (expectedRecord oracle m 0 n).times.length = n ∧
    (expectedRecord oracle m 0 n).costs.length = n ∧
    (expectedRecord oracle m 0 n).selection.length = n ∧
    (expectedRecord oracle m 0 n).quality.length = n := by
  simp [expectedRecord]

/-- Entries of an expected record at a valid index. -/
theorem expectedRecord_get (oracle : Oracle) (m : String) (n i : Nat) (hi : i < n) :
    (expectedRecord oracle m 0 n).times.get? i = some ((cellRec oracle i m).time) ∧
    (expectedRecord oracle m 0 n).costs.get? i = some ((cellRec oracle i m).cost) ∧
    (expectedRecord oracle m 0 n).selection.get? i = some ((cellRec oracle i m).selection) ∧
    (expectedRecord oracle m 0 n).quality.get? i = some ((cellRec oracle i m).quality) := by
  simp [expectedRecord, List.getElem?_map, List.getElem?_range, hi]

/-- Summation lemma: the fold of listSum splits off the head. -/
theorem listSum_cons (x : Rat) (l : List Rat) : listSum (x :: l) = x + listSum l := by
  have shift : ∀ (l : List Rat) (a : Rat), l.foldl (fun u v => u + v) a = a + listSum l := by
    intro l
    induction l with
    | nil => intro a; simp [listSum]
    | cons y ys ih =>
      intro a
      simp only [listSum, List.foldl_cons] at ih ⊢
      rw [ih (a + y), ih (0 + y)]
      ring
  simp only [listSum, List.foldl_cons]
  rw [shift l (0 + x), shift l 0]
  ring

/-- A list of zeros sums to zero. -/
theorem listSum_zero (l : List Rat) (h : ∀ y ∈ l, y = 0) : listSum l = 0 := by
  induction l with
  | nil => rfl
  | cons x xs ih =>
    rw [listSum_cons, h x (by simp), ih (fun y hy => h y (by simp [hy]))]
    ring

/-- The non-null entries of a list whose entries are all null. -/
theorem filterSome_eq_nil (xs : List (Option Rat)) (h : ∀ x ∈ xs, x = none) :
    filterSome xs = [] := by
  induction xs with
  | nil => rfl
  | cons x rest ih =>
    have hx := h x (by simp)
    subst hx
    simpa [filterSome] using ih (fun y hy => h y (by simp [hy]))

/-- Pushing a guarded map through the null filter. -/
theorem filterSome_map_ite (l : List Nat) (p : Nat → Bool) (g : Nat → Rat) :
    filterSome (l.map (fun j => if p j then some (g j) else none)) =
      (l.filter p).map g := by
  induction l with
  | nil => rfl
  | cons x rest ih =>
    by_cases h : p x
    · simp [filterSome, List.filter_cons, h] at ih ⊢
      exact ih
    · simp [filterSome, List.filter_cons, h] at ih ⊢
      exact ih

/-- Per-field closed form of a recorded cell entry. -/
theorem cellRec_time (oracle : Oracle) (i : Nat) (m : String) :
    (cellRec oracle i m).time =
      if cellOk (oracle i m) then some (genTime (oracle i m)) else none := by
  rw [cellRec_eq]; split <;> rfl

theorem cellRec_cost (oracle : Oracle) (i : Nat) (m : String) :
    (cellRec oracle i m).cost =
      if cellOk (oracle i m) then some ((genCost (oracle i m)).getD 0) else none := by
  rw [cellRec_eq]; split <;> rfl

theorem cellRec_selection (oracle : Oracle) (i : Nat) (m : String) :
    (cellRec oracle i m).selection =
      if cellOk (oracle i m) then some (selScore (oracle i m)) else none := by
  rw [cellRec_eq]; split <;> rfl

theorem cellRec_quality (oracle : Oracle) (i : Nat) (m : String) :
    (cellRec oracle i m).quality =
      if cellOk (oracle i m) then some (qualScore (oracle i m)) else none := by
  rw [cellRec_eq]; split <;> rfl

/-- The list of successful scenario indices for model m over n scenarios. -/
def successIdx (oracle : Oracle) (m : String) (n : Nat) : List Nat :=
  (List.range n).filter (fun i => cellOk (oracle i m))

/-- The non-null entries of each list of the expected record are exactly the
success-cell values, in scenario order. -/
theorem filterSome_expectedRecord (oracle : Oracle) (m : String) (n : Nat) :
    filterSome (expectedRecord oracle m 0 n).times =
      (successIdx oracle m n).map (fun i => genTime (oracle i m)) ∧
    filterSome (expectedRecord oracle m 0 n).costs =
      (successIdx oracle m n).map (fun i => (genCost (oracle i m)).getD 0) ∧
    filterSome (expectedRecord oracle m 0 n).selection =
      (successIdx oracle m n).map (fun i => selScore (oracle i m)) ∧
    filterSome (expectedRecord oracle m 0 n).quality =
      (successIdx oracle m n).map (fun i => qualScore (oracle i m)) := by
  refine ⟨?_, ?_, ?_, ?_⟩ <;>
  · simp only [expectedRecord, Nat.zero_add, successIdx]
    rw [show ∀ l : List Nat, ∀ f : Nat → Option Rat, l.map f = l.map f from fun _ _ => rfl]
    first
    | rw [show (fun j => (cellRec oracle j m).time) =
          (fun j => if cellOk (oracle j m) then some (genTime (oracle j m)) else none) from
          funext (fun j => cellRec_time oracle j m)]
    | rw [show (fun j => (cellRec oracle j m).cost) =
          (fun j => if cellOk (oracle j m) then some ((genCost (oracle j m)).getD 0) else none) from
          funext (fun j => cellRec_cost oracle j m)]
    | rw [show (fun j => (cellRec oracle j m).selection) =
          (fun j => if cellOk (oracle j m) then some (selScore (oracle j m)) else none) from
          funext (fun j => cellRec_selection oracle j m)]
    | rw [show (fun j => (cellRec oracle j m).quality) =
          (fun j => if cellOk (oracle j m) then some (qualScore (oracle j m)) else none) from
          funext (fun j => cellRec_quality oracle j m)]
    exact filterSome_map_ite _ _ _

/-- All four lists of the expected record filter to nothing when every cell of
the model failed. -/
theorem expectedRecord_allNone (oracle : Oracle) (m : String) (n : Nat)
    (hfail : ∀ i, i < n → cellOk (oracle i m) = false) :
    filterSome (expectedRecord oracle m 0 n).times = [] ∧
    filterSome (expectedRecord oracle m 0 n).costs = [] ∧
    filterSome (expectedRecord oracle m 0 n).selection = [] ∧
    filterSome (expectedRecord oracle m 0 n).quality = [] := by
  obtain ⟨h1, h2, h3, h4⟩ := filterSome_expectedRecord oracle m n
  have hempty : successIdx oracle m n = [] := by
    simp only [successIdx, List.filter_eq_nil_iff, List.mem_range]
    intro i hi
    simp [hfail i hi]
  rw [h1, h2, h3, h4, hempty]
  simp

/- Claim theorems and their witnesses. -/

/-- Environment holding the required credential, for concrete witnesses. -/
def envOK : List (String × String) := [("OPENROUTER_API_KEY", "sk-or-test")]

/-- Small corpus fixtures for concrete witnesses. -/
def sA : Scenario := ⟨"a", "Essay A", "content a", "rubric a", []⟩

def sB : Scenario := ⟨"b", "Essay B", "content b", "rubric b", []⟩

/-- claim C1: if generation or scoring of one (model, scenario) cell raises,
the exception is caught at the cell boundary, the cell is recorded as a
Failure (all four entries null at its index, not omitted), and every other
cell of every model is still executed and recorded according to its own
outcome, so the results hold exactly one entry per (model, scenario) pair. -/
theorem C1_cell_failure_recorded_run_continues
    (env : List (String × String)) (oracle : Oracle) (models : List String)
    (tests : List Scenario) (st : RunState) (m : String) (i : Nat)
    (hnd : models.Nodup) (hm : m ∈ models) (hi : i < tests.length)
    (hrun : run_benchmark env oracle models tests = some st)
    (hfail : cellOk (oracle i m) = false) :
    ∃ rec, st.results.lookup m = some rec ∧
      rec.times.get? i = some none ∧ rec.costs.get? i = some none ∧
      rec.selection.get? i = some none ∧ rec.quality.get? i = some none ∧
      ∀ m2 ∈ models, ∃ rec2, st.results.lookup m2 = some rec2 ∧
        rec2.times.length = tests.length ∧ rec2.costs.length = tests.length ∧
        rec2.selection.length = tests.length ∧ rec2.quality.length = tests.length ∧
        ∀ j, j < tests.length →
          rec2.times.get? j = some ((cellRec oracle j m2).time) ∧
          rec2.costs.get? j = some ((cellRec oracle j m2).cost) ∧
          rec2.selection.get? j = some ((cellRec oracle j m2).selection) ∧
          rec2.quality.get? j = some ((cellRec oracle j m2).quality) := by
  have hrec := run_results_lookup env oracle models tests st m hnd hm hrun
  obtain ⟨hg1, hg2, hg3, hg4⟩ := expectedRecord_get oracle m tests.length i hi
  refine ⟨_, hrec, ?_, ?_, ?_, ?_, ?_⟩
  · rw [hg1, cellRec_time, hfail]; simp
  · rw [hg2, cellRec_cost, hfail]; simp
  · rw [hg3, cellRec_selection, hfail]; simp
  · rw [hg4, cellRec_quality, hfail]; simp
  · intro m2 hm2
    have hrec2 := run_results_lookup env oracle models tests st m2 hnd hm2 hrun
    obtain ⟨hl1, hl2, hl3, hl4⟩ := expectedRecord_length oracle m2 tests.length
    exact ⟨_, hrec2, hl1, hl2, hl3, hl4,
      fun j hj => expectedRecord_get oracle m2 tests.length j hj⟩

/-- Oracle for the C1 witness: generation raises for model m1 on scenario 0,
every other cell succeeds. -/
def oracleC1 : Oracle := fun i m =>
  if i == 0 && m == "m1" then
    ⟨Except.error "BackendError", Except.ok 1, Except.ok 1⟩
  else ⟨Except.ok ⟨"x", 1, some 1, none⟩, Except.ok 1, Except.ok 1⟩

def stC1 : RunState :=
  runFrom oracleC1 ["m1", "m2"] 0 [sA, sB] ⟨initResults ["m1", "m2"], [], []⟩

theorem C1_witness :
    ∃ rec, stC1.results.lookup "m1" = some rec ∧
      rec.times.get? 0 = some none ∧ rec.costs.get? 0 = some none ∧
      rec.selection.get? 0 = some none ∧ rec.quality.get? 0 = some none ∧
      ∀ m2 ∈ ["m1", "m2"], ∃ rec2, stC1.results.lookup m2 = some rec2 ∧
        rec2.times.length = [sA, sB].length ∧ rec2.costs.length = [sA, sB].length ∧
        rec2.selection.length = [sA, sB].length ∧ rec2.quality.length = [sA, sB].length ∧
        ∀ j, j < [sA, sB].length →
          rec2.times.get? j = some ((cellRec oracleC1 j m2).time) ∧
          rec2.costs.get? j = some ((cellRec oracleC1 j m2).cost) ∧
          rec2.selection.get? j = some ((cellRec oracleC1 j m2).selection) ∧
          rec2.quality.get? j = some ((cellRec oracleC1 j m2).quality) :=
  C1_cell_failure_recorded_run_continues envOK oracleC1 ["m1", "m2"] [sA, sB] stC1
    "m1" 0 (by decide) (by decide) (by decide) rfl (by decide)

/-- claim C2, counterexample: with a successful generation, a judge error on
the first criterion and a perfectly healthy second criterion, the code does
not score the remaining criterion: only one judge measurement runs and the
recorded quality entry is null, refuting that the remaining criteria of the
same call still return valid scores. -/
theorem C2_counterexample :
    (execCell ⟨Except.ok ⟨"syn", 2, some 1, some 100⟩,
      Except.error "JudgeError", Except.ok 1⟩).2 = 1 ∧
    (execCell ⟨Except.ok ⟨"syn", 2, some 1, some 100⟩,
      Except.error "JudgeError", Except.ok 1⟩).1.quality = none := by
  constructor <;> rfl

/-- claim C2, amended: a JudgeError on one criterion is caught at the cell
boundary, so the remaining criteria of the same call are not scored (exactly
one judge measurement has run) and every entry of the cell is recorded as
missing, not 0. -/
theorem C2_amended_judge_error_aborts_cell (c : CellResult) (g : GenResult) (msg : String)
    (hg : c.gen = Except.ok g) (hs : c.sel = Except.error msg) :
    execCell c = (⟨none, none, none, none⟩, 1) := by
  obtain ⟨cg, cs, cq⟩ := c
  have hg2 : cg = Except.ok g := hg
  have hs2 : cs = Except.error msg := hs
  subst hg2
  subst hs2
  rfl

theorem C2_witness :
    execCell ⟨Except.ok ⟨"out", 3, none, some 7⟩, Except.error "JudgeError: backend down",
      Except.ok 2⟩ = (⟨none, none, none, none⟩, 1) :=
  C2_amended_judge_error_aborts_cell
    ⟨Except.ok ⟨"out", 3, none, some 7⟩, Except.error "JudgeError: backend down", Except.ok 2⟩
    ⟨"out", 3, none, some 7⟩ "JudgeError: backend down" rfl rfl

/-- claim C3, counterexample: a record with zero Success cells and a record
with a genuine all-zero Success cell produce identical summaries, so no
"no successful runs" flag exists and the two cases are indistinguishable. -/
theorem C3_counterexample :
    summarizeRecord ⟨[none], [none], [none], [none]⟩ =
      summarizeRecord ⟨[some 0], [some 0], [some 0], [some 0]⟩ ∧
    filterSome ([none] : List (Option Rat)) = [] ∧
    filterSome ([some 0] : List (Option Rat)) ≠ [] := by
  refine ⟨?_, by decide, by decide⟩
  simp [summarizeRecord, filterSome, listSum]

/-- claim C3, amended: for a model with zero Success cells every numeric field
of the summary equals 0; no explicit flag accompanies it (the summary carries
only the four numbers). -/
theorem C3_amended_zero_success_all_zero
    (env : List (String × String)) (oracle : Oracle) (models : List String)
    (tests : List Scenario) (st : RunState) (m : String)
    (hnd : models.Nodup) (hm : m ∈ models)
    (hrun : run_benchmark env oracle models tests = some st)
    (hfail : ∀ i, i < tests.length → cellOk (oracle i m) = false) :
    ∃ rec, st.results.lookup m = some rec ∧ summarizeRecord rec = ⟨0, 0, 0, 0⟩ := by
  have hrec := run_results_lookup env oracle models tests st m hnd hm hrun
  obtain ⟨h1, h2, h3, h4⟩ := expectedRecord_allNone oracle m tests.length hfail
  exact ⟨_, hrec, by simp [summarizeRecord, h1, h2, h3, h4]⟩

def oracleC3 : Oracle := fun _ _ =>
  ⟨Except.error "boom", Except.error "x", Except.error "y"⟩

def stC3 : RunState := runFrom oracleC3 ["mC"] 0 [sA] ⟨initResults ["mC"], [], []⟩

theorem C3_witness :
    ∃ rec, stC3.results.lookup "mC" = some rec ∧ summarizeRecord rec = ⟨0, 0, 0, 0⟩ :=
  C3_amended_zero_success_all_zero envOK oracleC3 ["mC"] [sA] stC3 "mC"
    (by decide) (by decide) rfl (by decide)

/-- claim C6, counterexample: a Success cell with no reported cost is recorded
exactly like a Success cell with a genuine zero cost, and a model whose only
Success cells have unreported costs gets a plain total of 0 with no unknown
flag — unknown is folded into 0, refuting the claim. -/
theorem C6_counterexample :
    (execCell ⟨Except.ok ⟨"a", 2, none, none⟩, Except.ok 3, Except.ok 4⟩).1 =
      (execCell ⟨Except.ok ⟨"a", 2, some 0, none⟩, Except.ok 3, Except.ok 4⟩).1 ∧
    (summarizeRecord ⟨[some 2], [some 0], [some 3], [some 4]⟩).total_cost = 0 := by
  constructor
  · rfl
  · simp [summarizeRecord, filterSome, listSum]

/-- claim C6, amended: a Success cell whose cost is unknown is folded into the
aggregation as 0 (its recorded cost entry is literally 0), and when every
recorded cost entry of a model is either null or this folded 0 the summary's
total cost is the plain number 0, with no unknown flag. -/
theorem C6_amended_unknown_cost_folded :
    (∀ c : CellResult, ∀ g : GenResult, c.gen = Except.ok g → cellOk c = true →
      g.cost = none → (execCell c).1.cost = some 0) ∧
    (∀ r : ModelRecord, (∀ x ∈ r.costs, x = none ∨ x = some 0) →
      (summarizeRecord r).total_cost = 0) := by
  constructor
  · intro c g hg hok hcost
    obtain ⟨cg, cs, cq⟩ := c
    have hg2 : cg = Except.ok g := hg
    subst hg2
    cases cs with
    | error e => simp [cellOk] at hok
    | ok s =>
      cases cq with
      | error e => simp [cellOk] at hok
      | ok q => simp [execCell, hcost]
  · intro r hr
    have hall : ∀ y ∈ filterSome r.costs, y = 0 := by
      intro y hy
      simp only [filterSome, List.mem_filterMap, id_eq] at hy
      obtain ⟨x, hx, hxy⟩ := hy
      rcases hr x hx with h | h
      · rw [h] at hxy; cases hxy
      · rw [h] at hxy; cases hxy; rfl
    by_cases hc : filterSome r.costs = []
    · simp [summarizeRecord, hc]
    · simp only [summarizeRecord, if_neg hc]
      exact listSum_zero _ hall

theorem C6_witness :
    (execCell ⟨Except.ok ⟨"w", 4, none, some 9⟩, Except.ok 5, Except.ok 6⟩).1.cost = some 0 ∧
    (summarizeRecord ⟨[some 4, none], [some 0, none], [some 5, none], [some 6, none]⟩).total_cost
      = 0 :=
  ⟨C6_amended_unknown_cost_folded.1 ⟨Except.ok ⟨"w", 4, none, some 9⟩, Except.ok 5, Except.ok 6⟩
      ⟨"w", 4, none, some 9⟩ rfl rfl rfl,
   C6_amended_unknown_cost_folded.2 ⟨[some 4, none], [some 0, none], [some 5, none], [some 6, none]⟩
      (by decide)⟩

/-- claim C8: the synthesis prompt of a scenario is a single string reused for
every candidate model — the trace of dispatched generate calls is exactly the
scenario-major, model-minor cross product, each scenario's calls all carrying
the identical rendered prompt, with models in their fixed list order — and the
per-model records are indexed by scenario in corpus order. -/
theorem C8_prompt_reuse_and_order
    (env : List (String × String)) (oracle : Oracle) (models : List String)
    (tests : List Scenario) (st : RunState)
    (hnd : models.Nodup)
    (hrun : run_benchmark env oracle models tests = some st) :
    st.genCalls =
      (tests.map (fun t => models.map (fun m => (m, renderPrompt t)))).flatten ∧
    ∀ m ∈ models, st.results.lookup m = some (expectedRecord oracle m 0 tests.length) := by
  constructor
  · have hst := run_benchmark_some env oracle models tests st hrun
    subst hst
    simpa using runFrom_genCalls oracle models tests 0 _
  · intro m hm
    exact run_results_lookup env oracle models tests st m hnd hm hrun

def oracleC8 : Oracle := fun _ _ =>
  ⟨Except.ok ⟨"s", 1, some 2, none⟩, Except.ok 3, Except.ok 4⟩

def stC8 : RunState :=
  runFrom oracleC8 ["m1", "m2"] 0 [sA, sB] ⟨initResults ["m1", "m2"], [], []⟩

theorem C8_witness :
    stC8.genCalls =
      ([sA, sB].map (fun t => ["m1", "m2"].map (fun m => (m, renderPrompt t)))).flatten ∧
    ∀ m ∈ ["m1", "m2"],
      stC8.results.lookup m = some (expectedRecord oracleC8 m 0 [sA, sB].length) :=
  C8_prompt_reuse_and_order envOK oracleC8 ["m1", "m2"] [sA, sB] stC8 (by decide) rfl

/-- The generate-call trace of a possibly aborted run. -/
def genCallsOf : Option RunState → List (String × String)
  | none => []
  | some st => st.genCalls

/-- The results of a possibly aborted run. -/
def resultsOf : Option RunState → List (String × ModelRecord)
  | none => []
  | some st => st.results

/-- claim C9: a run started without the required credential aborts before any
work: it reports the configuration failure to the caller (no run state), no
generate call is ever dispatched, and no partial results exist. -/
theorem C9_missing_key_aborts
    (env : List (String × String)) (oracle : Oracle) (models : List String)
    (tests : List Scenario)
    (h : env.lookup ("OPENROUTER_API_KEY") = none) :
    run_benchmark env oracle models tests = none ∧
    genCallsOf (run_benchmark env oracle models tests) = [] ∧
    resultsOf (run_benchmark env oracle models tests) = [] := by
  simp [run_benchmark, h, genCallsOf, resultsOf]

def oracleC9 : Oracle := fun _ _ =>
  ⟨Except.error "e", Except.error "e", Except.error "e"⟩

theorem C9_witness :
    run_benchmark [] oracleC9 ["m"] [sA] = none ∧
    genCallsOf (run_benchmark [] oracleC9 ["m"] [sA]) = [] ∧
    resultsOf (run_benchmark [] oracleC9 ["m"] [sA]) = [] :=
  C9_missing_key_aborts [] oracleC9 ["m"] [sA] rfl

/-- claim C10: after a run, each model's four sequences all have length equal
to the number of scenarios, the entries at index i all describe scenario i,
and at every index either all four entries are null (the cell failed) or all
four are non-null (the cell succeeded), so a cell's status is recoverable
from any one sequence. -/
theorem C10_record_alignment
    (env : List (String × String)) (oracle : Oracle) (models : List String)
    (tests : List Scenario) (st : RunState) (m : String)
    (hnd : models.Nodup) (hm : m ∈ models)
    (hrun : run_benchmark env oracle models tests = some st) :
    ∃ rec, st.results.lookup m = some rec ∧
      rec.times.length = tests.length ∧ rec.costs.length = tests.length ∧
      rec.selection.length = tests.length ∧ rec.quality.length = tests.length ∧
      ∀ i, i < tests.length →
        (rec.times.get? i = some ((cellRec oracle i m).time) ∧
         rec.costs.get? i = some ((cellRec oracle i m).cost) ∧
         rec.selection.get? i = some ((cellRec oracle i m).selection) ∧
         rec.quality.get? i = some ((cellRec oracle i m).quality)) ∧
        ((cellOk (oracle i m) = false ∧
          rec.times.get? i = some none ∧ rec.costs.get? i = some none ∧
          rec.selection.get? i = some none ∧ rec.quality.get? i = some none) ∨
         (cellOk (oracle i m) = true ∧
          ∃ a b c d, rec.times.get? i = some (some a) ∧ rec.costs.get? i = some (some b) ∧
            rec.selection.get? i = some (some c) ∧ rec.quality.get? i = some (some d))) := by
  have hrec := run_results_lookup env oracle models tests st m hnd hm hrun
  obtain ⟨hl1, hl2, hl3, hl4⟩ := expectedRecord_length oracle m tests.length
  refine ⟨_, hrec, hl1, hl2, hl3, hl4, ?_⟩
  intro i hi
  obtain ⟨hg1, hg2, hg3, hg4⟩ := expectedRecord_get oracle m tests.length i hi
  refine ⟨⟨hg1, hg2, hg3, hg4⟩, ?_⟩
  cases hok : cellOk (oracle i m) with
  | false =>
    left
    refine ⟨rfl, ?_, ?_, ?_, ?_⟩
    · rw [hg1, cellRec_time, hok]; simp
    · rw [hg2, cellRec_cost, hok]; simp
    · rw [hg3, cellRec_selection, hok]; simp
    · rw [hg4, cellRec_quality, hok]; simp
  | true =>
    right
    refine ⟨rfl, genTime (oracle i m), (genCost (oracle i m)).getD 0,
      selScore (oracle i m), qualScore (oracle i m), ?_, ?_, ?_, ?_⟩
    · rw [hg1, cellRec_time, hok]; simp
    · rw [hg2, cellRec_cost, hok]; simp
    · rw [hg3, cellRec_selection, hok]; simp
    · rw [hg4, cellRec_quality, hok]; simp

def oracleC10 : Oracle := fun i _ =>
  if i == 0 then ⟨Except.ok ⟨"y", 3, some 2, some 50⟩, Except.ok 7, Except.ok 8⟩
  else ⟨Except.ok ⟨"z", 1, none, none⟩, Except.error "JudgeError", Except.ok 9⟩

def stC10 : RunState := runFrom oracleC10 ["mA"] 0 [sA, sB] ⟨initResults ["mA"], [], []⟩

theorem C10_witness :
    ∃ rec, stC10.results.lookup "mA" = some rec ∧
      rec.times.length = [sA, sB].length ∧ rec.costs.length = [sA, sB].length ∧
      rec.selection.length = [sA, sB].length ∧ rec.quality.length = [sA, sB].length ∧
      ∀ i, i < [sA, sB].length →
        (rec.times.get? i = some ((cellRec oracleC10 i "mA").time) ∧
         rec.costs.get? i = some ((cellRec oracleC10 i "mA").cost) ∧
         rec.selection.get? i = some ((cellRec oracleC10 i "mA").selection) ∧
         rec.quality.get? i = some ((cellRec oracleC10 i "mA").quality)) ∧
        ((cellOk (oracleC10 i "mA") = false ∧
          rec.times.get? i = some none ∧ rec.costs.get? i = some none ∧
          rec.selection.get? i = some none ∧ rec.quality.get? i = some none) ∨
         (cellOk (oracleC10 i "mA") = true ∧
          ∃ a b c d, rec.times.get? i = some (some a) ∧ rec.costs.get? i = some (some b) ∧
            rec.selection.get? i = some (some c) ∧ rec.quality.get? i = some (some d))) :=
  C10_record_alignment envOK oracleC10 ["mA"] [sA, sB] stC10 "mA"
    (by decide) (by decide) rfl

/-- claim C4: for a model with a non-empty set of Success cells, the summary's
cost is the exact sum of the Success cells' costs, its time the exact mean of
the Success cells' elapsed times, and each criterion score the exact mean of
the Success cells' scores for that criterion; Failure cells appear in none of
these computations (the divisor is the Success count, not the cell count). -/
theorem C4_success_aggregation
    (env : List (String × String)) (oracle : Oracle) (models : List String)
    (tests : List Scenario) (st : RunState) (m : String)
    (hnd : models.Nodup) (hm : m ∈ models)
    (hrun : run_benchmark env oracle models tests = some st)
    (hne : successIdx oracle m tests.length ≠ [])
    (hcost : ∀ i ∈ successIdx oracle m tests.length, genCost (oracle i m) ≠ none) :
    ∃ rec, st.results.lookup m = some rec ∧
      (summarizeRecord rec).avg_time =
        listSum ((successIdx oracle m tests.length).map (fun i => genTime (oracle i m))) /
          ((successIdx oracle m tests.length).length : Rat) ∧
      (summarizeRecord rec).total_cost =
        listSum ((successIdx oracle m tests.length).map
          (fun i => (genCost (oracle i m)).getD 0)) ∧
      (summarizeRecord rec).avg_sel =
        listSum ((successIdx oracle m tests.length).map (fun i => selScore (oracle i m))) /
          ((successIdx oracle m tests.length).length : Rat) ∧
      (summarizeRecord rec).avg_qual =
        listSum ((successIdx oracle m tests.length).map (fun i => qualScore (oracle i m))) /
          ((successIdx oracle m tests.length).length : Rat) := by
  have hrec := run_results_lookup env oracle models tests st m hnd hm hrun
  obtain ⟨h1, h2, h3, h4⟩ := filterSome_expectedRecord oracle m tests.length
  have hmapne : ∀ f : Nat → Rat, (successIdx oracle m tests.length).map f ≠ [] := by
    intro f h
    exact hne (List.map_eq_nil_iff.mp h)
  refine ⟨_, hrec, ?_, ?_, ?_, ?_⟩
  · simp only [summarizeRecord, h1, h2, h3, h4]
    rw [if_neg (hmapne _)]
    simp
  · simp only [summarizeRecord, h1, h2, h3, h4]
    rw [if_neg (hmapne _)]
  · simp only [summarizeRecord, h1, h2, h3, h4]
    rw [if_neg (hmapne _)]
    simp
  · simp only [summarizeRecord, h1, h2, h3, h4]
    rw [if_neg (hmapne _)]
    simp

def sC : Scenario := ⟨"c", "Essay C", "content c", "rubric c", []⟩

/-- Oracle for the C4 witness: scenarios 0 and 2 succeed (with reported
costs), scenario 1 raises a backend error. -/
def oracleC4 : Oracle := fun i _ =>
  if i == 0 then ⟨Except.ok ⟨"p", 2, some 3, some 10⟩, Except.ok 4, Except.ok 6⟩
  else if i == 1 then ⟨Except.error "BackendError", Except.ok 0, Except.ok 0⟩
  else ⟨Except.ok ⟨"q", 4, some 5, none⟩, Except.ok 8, Except.ok 10⟩

def stC4 : RunState := runFrom oracleC4 ["mB"] 0 [sA, sB, sC] ⟨initResults ["mB"], [], []⟩

theorem C4_witness :
    ∃ rec, stC4.results.lookup "mB" = some rec ∧
      (summarizeRecord rec).avg_time =
        listSum ((successIdx oracleC4 "mB" [sA, sB, sC].length).map
          (fun i => genTime (oracleC4 i "mB"))) /
          ((successIdx oracleC4 "mB" [sA, sB, sC].length).length : Rat) ∧
      (summarizeRecord rec).total_cost =
        listSum ((successIdx oracleC4 "mB" [sA, sB, sC].length).map
          (fun i => (genCost (oracleC4 i "mB")).getD 0)) ∧
      (summarizeRecord rec).avg_sel =
        listSum ((successIdx oracleC4 "mB" [sA, sB, sC].length).map
          (fun i => selScore (oracleC4 i "mB"))) /
          ((successIdx oracleC4 "mB" [sA, sB, sC].length).length : Rat) ∧
      (summarizeRecord rec).avg_qual =
        listSum ((successIdx oracleC4 "mB" [sA, sB, sC].length).map
          (fun i => qualScore (oracleC4 i "mB"))) /
          ((successIdx oracleC4 "mB" [sA, sB, sC].length).length : Rat) :=
  C4_success_aggregation envOK oracleC4 ["mB"] [sA, sB, sC] stC4 "mB"
    (by decide) (by decide) rfl (by decide) (by decide)

/-- claim C5: the generation client's returned cost is exactly the value of
the "cost" key of the usage metadata — absent (null, not 0) when the backend
does not report one, and the reported number otherwise, including a genuine
reported 0. -/
theorem C5_cost_extraction (content : String) (elapsed : Rat)
    (usage : List (String × Rat)) :
    (clientGenerate content elapsed usage).cost = usage.lookup ("cost") := by
  simp only [clientGenerate]
  cases usage.lookup ("cost") <;> rfl

/-
  String-occurrence machinery for the prompt-rendering claim: counting the
  occurrences of a pattern in a character list, and summing counts over a
  concatenation when no occurrence spans a piece boundary.
-/

/-- Number of positions (including the end position) of s at which p occurs. -/
def countOcc (p : List Char) : List Char → Nat
  | [] => if p.isPrefixOf [] then 1 else 0
  | c :: rest => (if p.isPrefixOf (c :: rest) then 1 else 0) + countOcc p rest

/-- No occurrence of p starts inside x and ends inside y. -/
def noSpan (p x y : List Char) : Prop :=
  ∀ k, k < x.length → x.length < k + p.length → p.isPrefixOf ((x ++ y).drop k) = false

/-- No occurrence of p spans any piece boundary of the concatenation of ps. -/
def noSpanAll (p : List Char) (ps : List (List Char)) : Prop :=
  ∀ k, k ≤ ps.length → noSpan p ((ps.take k).flatten) ((ps.drop k).flatten)

instance noSpanDecidable (p x y : List Char) : Decidable (noSpan p x y) := by
  unfold noSpan; infer_instance

instance noSpanAllDecidable (p : List Char) (ps : List (List Char)) :
    Decidable (noSpanAll p ps) := by
  unfold noSpanAll; infer_instance

/-- Boundary-local reformulation of noSpan: only the positions whose suffix
starts within the last pattern-length characters of x can span, indexed here
by the number d of x-characters the occurrence would consume. -/
def noSpanTail (p x y : List Char) : Prop :=
  ∀ d, d < p.length → 0 < d → d ≤ x.length →
    p.isPrefixOf (x.drop (x.length - d) ++ y) = false

/-- Boundary-local reformulation of noSpanAll, cheap to decide. -/
def noSpanAllTail (p : List Char) (ps : List (List Char)) : Prop :=
  ∀ k, k ≤ ps.length → noSpanTail p ((ps.take k).flatten) ((ps.drop k).flatten)

instance noSpanTailDecidable (p x y : List Char) : Decidable (noSpanTail p x y) := by
  unfold noSpanTail; infer_instance

instance noSpanAllTailDecidable (p : List Char) (ps : List (List Char)) :
    Decidable (noSpanAllTail p ps) := by
  unfold noSpanAllTail; infer_instance

theorem noSpan_of_tail {p x y : List Char} (h : noSpanTail p x y) : noSpan p x y := by
  intro k hk hlen
  have h1 : 0 < x.length - k := by omega
  have h2 : x.length - k < p.length := by omega
  have h3 : x.length - k ≤ x.length := by omega
  have h4 := h (x.length - k) h2 h1 h3
  rw [show x.length - (x.length - k) = k from by omega] at h4
  rwa [List.drop_append_of_le_length (by omega)]

theorem noSpanAll_of_tail {p : List Char} {ps : List (List Char)}
    (h : noSpanAllTail p ps) : noSpanAll p ps :=
  fun k hk => noSpan_of_tail (h k hk)

theorem isPrefixOf_length_le {p s : List Char} (h : p.isPrefixOf s = true) :
    p.length ≤ s.length :=
  (List.isPrefixOf_iff_prefix.mp h).length_le

theorem isPrefixOf_append_of_le :
    ∀ (p x y : List Char), p.length ≤ x.length →
      p.isPrefixOf (x ++ y) = p.isPrefixOf x
  | [], _, _, _ => by simp [List.isPrefixOf]
  | a :: p1, [], _, h => by simp at h
  | a :: p1, b :: x1, y, h => by
    show (a == b && p1.isPrefixOf (x1 ++ y)) = (a == b && p1.isPrefixOf x1)
    rw [isPrefixOf_append_of_le p1 x1 y (by simpa using h)]

theorem countOcc_nil (p : List Char) (hp : p ≠ []) : countOcc p [] = 0 := by
  cases p with
  | nil => exact absurd rfl hp
  | cons c cs => rfl

theorem countOcc_short (p : List Char) :
    ∀ s : List Char, s.length < p.length → countOcc p s = 0 := by
  intro s
  induction s with
  | nil =>
    intro h
    have hp : p ≠ [] := by
      intro hc; rw [hc] at h; simp at h
    exact countOcc_nil p hp
  | cons c rest ih =>
    intro h
    have hhead : p.isPrefixOf (c :: rest) = false := by
      rw [← Bool.not_eq_true]
      intro hc
      have := isPrefixOf_length_le hc
      simp only [List.length_cons] at this h
      omega
    have hrest := ih (by simp only [List.length_cons] at h; omega)
    simp [countOcc, hhead, hrest]

theorem isPrefixOf_refl (p : List Char) : p.isPrefixOf p = true :=
  List.isPrefixOf_iff_prefix.mpr (List.prefix_refl p)

theorem countOcc_self (p : List Char) (hp : p ≠ []) : countOcc p p = 1 := by
  cases p with
  | nil => exact absurd rfl hp
  | cons c cs =>
    have hshort := countOcc_short (c :: cs) cs (by simp)
    simp [countOcc, isPrefixOf_refl, hshort]

theorem noSpan_of_cons {p : List Char} {c : Char} {x y : List Char}
    (h : noSpan p (c :: x) y) : noSpan p x y := by
  intro k hk hlen
  have h2 := h (k + 1) (by simp only [List.length_cons]; omega)
    (by simp only [List.length_cons]; omega)
  exact h2

theorem noSpan_append_left {p : List Char} :
    ∀ (x : List Char) {A B : List Char}, noSpan p (x ++ A) B → noSpan p A B := by
  intro x
  induction x with
  | nil => intro A B h; exact h
  | cons c x1 ih =>
    intro A B h
    exact ih (noSpan_of_cons h)

theorem countOcc_append (p : List Char) (hp : p ≠ []) :
    ∀ (x y : List Char), noSpan p x y →
      countOcc p (x ++ y) = countOcc p x + countOcc p y := by
  intro x
  induction x with
  | nil =>
    intro y _
    simp [countOcc_nil p hp]
  | cons c x1 ih =>
    intro y hns
    have hhead : p.isPrefixOf (c :: (x1 ++ y)) = p.isPrefixOf (c :: x1) := by
      by_cases hl : p.length ≤ (c :: x1).length
      · exact isPrefixOf_append_of_le p (c :: x1) y hl
      · push_neg at hl
        have h1 : p.isPrefixOf (c :: x1) = false := by
          rw [← Bool.not_eq_true]
          intro hc
          have := isPrefixOf_length_le hc
          omega
        have h2 := hns 0 (by simp) (by simp only [List.length_cons] at hl ⊢; omega)
        simp only [List.drop_zero, List.cons_append] at h2
        rw [h1, h2]
    show (if p.isPrefixOf (c :: (x1 ++ y)) then 1 else 0) + countOcc p (x1 ++ y) =
      ((if p.isPrefixOf (c :: x1) then 1 else 0) + countOcc p x1) + countOcc p y
    rw [hhead, ih y (noSpan_of_cons hns)]
    omega

theorem noSpanAll_head {p : List Char} {x : List Char} {ps : List (List Char)}
    (h : noSpanAll p (x :: ps)) : noSpan p x ps.flatten := by
  have h1 := h 1 (by simp)
  simpa using h1

theorem noSpanAll_tail {p : List Char} {x : List Char} {ps : List (List Char)}
    (h : noSpanAll p (x :: ps)) : noSpanAll p ps := by
  intro k hk
  have h2 := h (k + 1) (by simpa using Nat.succ_le_succ hk)
  have h3 : noSpan p (x ++ (ps.take k).flatten) ((ps.drop k).flatten) := by
    simpa using h2
  exact noSpan_append_left x h3

theorem countOcc_flatten (p : List Char) (hp : p ≠ []) :
    ∀ ps : List (List Char), noSpanAll p ps →
      countOcc p ps.flatten = (ps.map (countOcc p)).sum := by
  intro ps
  induction ps with
  | nil => intro _; simp [countOcc_nil p hp]
  | cons x rest ih =>
    intro h
    rw [List.flatten_cons, countOcc_append p hp x rest.flatten (noSpanAll_head h),
      ih (noSpanAll_tail h)]
    simp

/-- Splitting the flattening of a piece list around the piece at index k. -/
theorem flatten_split (xk : List Char) :
    ∀ (ps : List (List Char)) (k : Nat), ps.get? k = some xk →
      ∃ A B, ps.flatten = A ++ xk ++ B := by
  intro ps
  induction ps with
  | nil => intro k h; simp at h
  | cons x rest ih =>
    intro k h
    cases k with
    | zero =>
      simp only [List.get?_cons_zero, Option.some.injEq] at h
      subst h
      exact ⟨[], rest.flatten, by simp⟩
    | succ k1 =>
      simp only [List.get?_cons_succ] at h
      obtain ⟨A, B, hAB⟩ := ih k1 h
      exact ⟨x ++ A, B, by simp [hAB, List.append_assoc]⟩

/-- Splitting the flattening of a piece list around two pieces in order. -/
theorem flatten_double_split (xa xb : List Char) :
    ∀ (ps : List (List Char)) (a b : Nat), a < b →
      ps.get? a = some xa → ps.get? b = some xb →
      ∃ A B C, ps.flatten = A ++ xa ++ B ++ xb ++ C := by
  intro ps
  induction ps with
  | nil => intro a b _ ha _; simp at ha
  | cons x rest ih =>
    intro a b hab ha hb
    cases a with
    | zero =>
      simp only [List.get?_cons_zero, Option.some.injEq] at ha
      subst ha
      cases b with
      | zero => omega
      | succ b1 =>
        simp only [List.get?_cons_succ] at hb
        obtain ⟨A, B, hAB⟩ := flatten_split xb rest b1 hb
        exact ⟨[], A, B, by simp [hAB, List.append_assoc]⟩
    | succ a1 =>
      cases b with
      | zero => omega
      | succ b1 =>
        simp only [List.get?_cons_succ] at ha hb
        obtain ⟨A, B, C, hABC⟩ := ih a1 b1 (by omega) ha hb
        exact ⟨x ++ A, B, C, by simp [hABC, List.append_assoc]⟩

/-- Character-level pieces of the grader XML: per grader, the opening tag
text up to the attributes, the attribute text, the closing part, and the
blank-line separator before the next block. -/
def xmlPieces (i : Nat) : List GraderRecord → List (List Char)
  | [] => []
  | [g] => [(blockPre i).data, (graderAttr g).data, (blockPost i g).data]
  | g :: g2 :: rest =>
    (blockPre i).data :: (graderAttr g).data :: (blockPost i g).data ::
      ("\n\n" : String).data :: xmlPieces (i + 1) (g2 :: rest)

/-- Character-level pieces of the whole rendered prompt. -/
def promptPieces (s : Scenario) : List (List Char) :=
  (promptHeader s).data :: (xmlPieces 1 s.grader_feedback ++ [promptTail.data])

theorem xml_data :
    ∀ (gs : List GraderRecord) (i : Nat),
      (joinSep ("\n\n") ((numberFrom i gs).map (fun p => graderBlock p.1 p.2))).data =
        (xmlPieces i gs).flatten := by
  intro gs
  induction gs with
  | nil => intro i; rfl
  | cons g rest ih =>
    intro i
    cases rest with
    | nil =>
      simp [numberFrom, joinSep, xmlPieces, graderBlock]
    | cons g2 rest2 =>
      have hih := ih (i + 1)
      simp only [numberFrom, List.map_cons, joinSep, xmlPieces, graderBlock,
        String.data_append, List.flatten_cons] at hih ⊢
      rw [hih]
      simp [List.append_assoc]

theorem renderPrompt_data (s : Scenario) :
    (renderPrompt s).data = (promptPieces s).flatten := by
  have hx := xml_data s.grader_feedback 1
  simp only [renderPrompt, promptPieces, String.data_append, format_grader_feedback_xml,
    List.flatten_cons, List.flatten_append]
  rw [hx]
  simp [List.append_assoc]

theorem xmlPieces_length :
    ∀ (gs : List GraderRecord) (i : Nat), gs ≠ [] →
      (xmlPieces i gs).length = 4 * gs.length - 1 := by
  intro gs
  induction gs with
  | nil => intro i h; exact absurd rfl h
  | cons g rest ih =>
    intro i _
    cases rest with
    | nil => rfl
    | cons g2 rest2 =>
      have := ih (i + 1) (by simp)
      simp only [xmlPieces, List.length_cons, this, List.length_cons]
      omega

theorem xmlPieces_attr_get :
    ∀ (gs : List GraderRecord) (i j : Nat) (hj : j < gs.length),
      (xmlPieces i gs).get? (4 * j + 1) =
        some (graderAttr (gs.get ⟨j, hj⟩)).data := by
  intro gs
  induction gs with
  | nil => intro i j hj; simp at hj
  | cons g rest ih =>
    intro i j hj
    cases rest with
    | nil =>
      have hj0 : j = 0 := by simp at hj; omega
      subst hj0
      rfl
    | cons g2 rest2 =>
      cases j with
      | zero => rfl
      | succ j1 =>
        have hj1 : j1 < (g2 :: rest2).length := by
          simp only [List.length_cons] at hj ⊢; omega
        have hrec := ih (i + 1) j1 hj1
        rw [show 4 * (j1 + 1) + 1 = 4 * j1 + 1 + 1 + 1 + 1 + 1 from by omega]
        simp only [xmlPieces, List.get?_cons_succ]
        simpa [List.get] using hrec

theorem xmlPieces_post_get :
    ∀ (gs : List GraderRecord) (i j : Nat) (hj : j < gs.length),
      (xmlPieces i gs).get? (4 * j + 2) =
        some (blockPost (i + j) (gs.get ⟨j, hj⟩)).data := by
  intro gs
  induction gs with
  | nil => intro i j hj; simp at hj
  | cons g rest ih =>
    intro i j hj
    cases rest with
    | nil =>
      have hj0 : j = 0 := by simp at hj; omega
      subst hj0
      simp [xmlPieces]
    | cons g2 rest2 =>
      cases j with
      | zero => simp [xmlPieces]
      | succ j1 =>
        have hj1 : j1 < (g2 :: rest2).length := by
          simp only [List.length_cons] at hj ⊢; omega
        have hrec := ih (i + 1) j1 hj1
        rw [show 4 * (j1 + 1) + 2 = 4 * j1 + 2 + 1 + 1 + 1 + 1 from by omega]
        simp only [xmlPieces, List.get?_cons_succ]
        rw [show i + 1 + j1 = i + (j1 + 1) from by omega] at hrec
        simpa [List.get] using hrec

theorem promptPieces_attr_get (s : Scenario) (j : Nat)
    (hj : j < s.grader_feedback.length) :
    (promptPieces s).get? (4 * j + 2) =
      some (graderAttr (s.grader_feedback.get ⟨j, hj⟩)).data := by
  have hne : s.grader_feedback ≠ [] := by
    intro h; rw [h] at hj; simp at hj
  have hlen := xmlPieces_length s.grader_feedback 1 hne
  have hbound : 4 * j + 1 < (xmlPieces 1 s.grader_feedback).length := by
    rw [hlen]; omega
  rw [show 4 * j + 2 = (4 * j + 1) + 1 from by omega]
  simp only [promptPieces, List.get?_cons_succ]
  rw [List.get?_append hbound]
  exact xmlPieces_attr_get s.grader_feedback 1 j hj

theorem promptPieces_post_get (s : Scenario) (j : Nat)
    (hj : j < s.grader_feedback.length) :
    (promptPieces s).get? (4 * j + 3) =
      some (blockPost (1 + j) (s.grader_feedback.get ⟨j, hj⟩)).data := by
  have hne : s.grader_feedback ≠ [] := by
    intro h; rw [h] at hj; simp at hj
  have hlen := xmlPieces_length s.grader_feedback 1 hne
  have hbound : 4 * j + 2 < (xmlPieces 1 s.grader_feedback).length := by
    rw [hlen]; omega
  rw [show 4 * j + 3 = (4 * j + 2) + 1 from by omega]
  simp only [promptPieces, List.get?_cons_succ]
  rw [List.get?_append hbound]
  exact xmlPieces_post_get s.grader_feedback 1 j hj

theorem xmlPieces_count_zero (p : List Char) :
    ∀ (gs : List GraderRecord) (i : Nat),
      (∀ k, (hk : k < gs.length) →
        countOcc p (blockPre (i + k)).data = 0 ∧
        countOcc p (blockPost (i + k) (gs.get ⟨k, hk⟩)).data = 0) →
      (∀ k, (hk : k < gs.length) →
        countOcc p (graderAttr (gs.get ⟨k, hk⟩)).data = 0) →
      countOcc p ("\n\n" : String).data = 0 →
      ((xmlPieces i gs).map (countOcc p)).sum = 0 := by
  intro gs
  induction gs with
  | nil => intro i _ _ _; rfl
  | cons g rest ih =>
    intro i hglue hattr hsep
    obtain ⟨hpre0, hpost0⟩ := hglue 0 (by simp)
    have hattr0 := hattr 0 (by simp)
    simp only [Nat.add_zero, List.get] at hpre0 hpost0 hattr0
    cases rest with
    | nil =>
      simp [xmlPieces, hpre0, hpost0, hattr0]
    | cons g2 rest2 =>
      have htail := ih (i + 1)
        (fun k hk => by
          have h := hglue (k + 1) (by simp only [List.length_cons] at hk ⊢; omega)
          rw [show i + (k + 1) = i + 1 + k from by omega] at h
          simpa using h)
        (fun k hk => by
          have h := hattr (k + 1) (by simp only [List.length_cons] at hk ⊢; omega)
          simpa [List.get] using h)
        hsep
      simp [xmlPieces, hpre0, hpost0, hattr0, hsep, htail]

theorem xmlPieces_count_one (p : List Char) :
    ∀ (gs : List GraderRecord) (i j : Nat) (hj : j < gs.length),
      (∀ k, (hk : k < gs.length) →
        countOcc p (blockPre (i + k)).data = 0 ∧
        countOcc p (blockPost (i + k) (gs.get ⟨k, hk⟩)).data = 0) →
      (∀ k, (hk : k < gs.length) → k ≠ j →
        countOcc p (graderAttr (gs.get ⟨k, hk⟩)).data = 0) →
      countOcc p (graderAttr (gs.get ⟨j, hj⟩)).data = 1 →
      countOcc p ("\n\n" : String).data = 0 →
      ((xmlPieces i gs).map (countOcc p)).sum = 1 := by
  intro gs
  induction gs with
  | nil => intro i j hj; simp at hj
  | cons g rest ih =>
    intro i j hj hglue hattr hself hsep
    cases rest with
    | nil =>
      have hj0 : j = 0 := by simp at hj; omega
      subst hj0
      obtain ⟨hpre0, hpost0⟩ := hglue 0 (by simp)
      simp only [Nat.add_zero, List.get] at hpre0 hpost0 hself
      simp [xmlPieces, hpre0, hpost0, hself]
    | cons g2 rest2 =>
      cases j with
      | zero =>
        obtain ⟨hpre0, hpost0⟩ := hglue 0 (by simp)
        simp only [Nat.add_zero, List.get] at hpre0 hpost0 hself
        have htail := xmlPieces_count_zero p (g2 :: rest2) (i + 1)
          (fun k hk => by
            have h := hglue (k + 1) (by simp only [List.length_cons] at hk ⊢; omega)
            rw [show i + (k + 1) = i + 1 + k from by omega] at h
            simpa [List.get] using h)
          (fun k hk => by
            have h := hattr (k + 1) (by simp only [List.length_cons] at hk ⊢; omega)
              (by omega)
            simpa [List.get] using h)
          hsep
        simp [xmlPieces, hpre0, hpost0, hself, hsep, htail]
      | succ j1 =>
        obtain ⟨hpre0, hpost0⟩ := hglue 0 (by simp)
        have hattr0 := hattr 0 (by simp) (by omega)
        simp only [Nat.add_zero, List.get] at hpre0 hpost0 hattr0
        have hj1 : j1 < (g2 :: rest2).length := by
          simp only [List.length_cons] at hj ⊢; omega
        have htail := ih (i + 1) j1 hj1
          (fun k hk => by
            have h := hglue (k + 1) (by simp only [List.length_cons] at hk ⊢; omega)
            rw [show i + (k + 1) = i + 1 + k from by omega] at h
            simpa [List.get] using h)
          (fun k hk hkj => by
            have h := hattr (k + 1) (by simp only [List.length_cons] at hk ⊢; omega)
              (by omega)
            simpa [List.get] using h)
          (by simpa [List.get] using hself)
          hsep
        simp [xmlPieces, hpre0, hpost0, hattr0, hsep, htail]

/-- Extending an infix on the left. -/
theorem infix_ext_left {l t : List Char} (x : List Char) (h : l <:+: t) :
    l <:+: x ++ t := by
  obtain ⟨s, u, hsu⟩ := h
  exact ⟨x ++ s, u, by rw [← hsu]; simp [List.append_assoc]⟩

/-- Extending an infix on the right. -/
theorem infix_ext_right {l t : List Char} (y : List Char) (h : l <:+: t) :
    l <:+: t ++ y := by
  obtain ⟨s, u, hsu⟩ := h
  exact ⟨s, u ++ y, by rw [← hsu]; simp [List.append_assoc]⟩

/-- The attribute text of a grader is never the empty string. -/
theorem graderAttr_data_ne_nil (g : GraderRecord) : (graderAttr g).data ≠ [] := by
  intro h
  have h2 : (("model=\"" : String)).data ++
      (g.model.data ++ ((("\" percentage=\"" : String)).data ++
        ((toString g.percentage).data ++ (("\"" : String)).data))) = [] := by
    simpa [graderAttr, String.data_append, List.append_assoc] using h
  exact absurd (List.append_eq_nil.mp h2).1 (by decide)

/-- A member of a separator-joined list appears contiguously in the join. -/
theorem joinSep_mem_infix (sep : String) :
    ∀ (l : List String) (x : String), x ∈ l → x.data <:+: (joinSep sep l).data := by
  intro l
  induction l with
  | nil => intro x h; simp at h
  | cons y rest ih =>
    intro x h
    cases rest with
    | nil =>
      have hx : x = y := by simpa using h
      subst hx
      exact List.infix_rfl
    | cons z rest2 =>
      rcases List.mem_cons.mp h with h1 | h1
      · subst h1
        refine ⟨[], sep.data ++ (joinSep sep (z :: rest2)).data, ?_⟩
        simp [joinSep, String.data_append, List.append_assoc]
      · have h2 := ih x h1
        have h3 : x.data <:+: y.data ++ (sep.data ++ (joinSep sep (z :: rest2)).data) :=
          infix_ext_left _ (infix_ext_left _ h2)
        simpa [joinSep, String.data_append, List.append_assoc] using h3

/-- A member of a rendered JSON array appears contiguously in the array text. -/
theorem arrJson4_mem_infix (l : List String) (x : String) (h : x ∈ l) :
    x.data <:+: (arrJson4 l).data := by
  cases l with
  | nil => simp at h
  | cons e rest =>
    have h1 : ("    " ++ x) ∈ (e :: rest).map (fun y => "    " ++ y) :=
      List.mem_map_of_mem _ h
    have h2 := joinSep_mem_infix (",\n") ((e :: rest).map (fun y => "    " ++ y)) _ h1
    have h3 : x.data <:+: (("    " : String) ++ x).data :=
      ⟨(("    " : String)).data, [], by simp [String.data_append]⟩
    have h4 : (joinSep (",\n") ((e :: rest).map (fun y => "    " ++ y))).data <:+:
        (arrJson4 (e :: rest)).data := by
      refine ⟨(("[\n" : String)).data, (("\n  ]" : String)).data, ?_⟩
      simp [arrJson4, String.data_append]
    exact (h3.trans h2).trans h4

/-- The full rendering of a strength item appears contiguously in the
serialized feedback. -/
theorem strengthJson_infix_fbJson (fb : Feedback) (it : StrengthItem)
    (hit : it ∈ fb.strengths) :
    (strengthJson it).data <:+: (fbJson fb).data := by
  have h1 : (strengthJson it).data <:+: (arrJson4 (fb.strengths.map strengthJson)).data :=
    arrJson4_mem_infix _ _ (List.mem_map_of_mem _ hit)
  have h2 : (arrJson4 (fb.strengths.map strengthJson)).data <:+: (fbJson fb).data := by
    refine ⟨(("\x7b\n  \"strengths\": " : String)).data,
      ((",\n  \"improvements\": " : String)).data ++
        (arrJson4 (fb.improvements.map improvementJson)).data ++
        (("\n\x7d" : String)).data, ?_⟩
    simp [fbJson, String.data_append, List.append_assoc]
  exact h1.trans h2

/-- The full rendering of an improvement item appears contiguously in the
serialized feedback. -/
theorem improvementJson_infix_fbJson (fb : Feedback) (it : ImprovementItem)
    (hit : it ∈ fb.improvements) :
    (improvementJson it).data <:+: (fbJson fb).data := by
  have h1 : (improvementJson it).data <:+:
      (arrJson4 (fb.improvements.map improvementJson)).data :=
    arrJson4_mem_infix _ _ (List.mem_map_of_mem _ hit)
  have h2 : (arrJson4 (fb.improvements.map improvementJson)).data <:+: (fbJson fb).data := by
    refine ⟨(("\x7b\n  \"strengths\": " : String)).data ++
      (arrJson4 (fb.strengths.map strengthJson)).data ++
      ((",\n  \"improvements\": " : String)).data,
      (("\n\x7d" : String)).data, ?_⟩
    simp [fbJson, String.data_append, List.append_assoc]
  exact h1.trans h2

/-- The serialized feedback of a grader appears contiguously in its block. -/
theorem fbJson_infix_blockPost (i : Nat) (g : GraderRecord) :
    (fbJson g.feedback).data <:+: (blockPost i g).data := by
  refine ⟨((">\n" : String)).data,
    (("\n</grader_" : String)).data ++ (toString i).data ++ ((">" : String)).data, ?_⟩
  simp [blockPost, String.data_append, List.append_assoc]

/-- The serialized feedback of every grader appears contiguously in the
rendered prompt. -/
theorem fbJson_infix_prompt (s : Scenario) (j : Nat)
    (hj : j < s.grader_feedback.length) :
    (fbJson (s.grader_feedback.get ⟨j, hj⟩).feedback).data <:+: (renderPrompt s).data := by
  have hpost := promptPieces_post_get s j hj
  obtain ⟨A, B, hAB⟩ := flatten_split _ (promptPieces s) (4 * j + 3) hpost
  rw [renderPrompt_data, hAB, List.append_assoc]
  exact infix_ext_left A (infix_ext_right B (fbJson_infix_blockPost (1 + j) _))

/-- claim C7: the rendered synthesis prompt contains, verbatim, each grader's
model identifier and percentage (as the attribute text of its labeled block)
exactly once, the blocks appearing in the order the grader records were
supplied, and it serializes each grader's full nested feedback: the complete
JSON rendering of the feedback body and of every strength and improvement
item appears verbatim.  The isolation hypothesis states that a grader's
attribute text does not also occur inside the fixed template text, the
scenario fields, another grader's attribute, the serialized feedback bodies,
or across a piece boundary — which holds for the benchmark corpus, whose
attribute texts appear only as attributes. -/
theorem C7_prompt_contains_graders (s : Scenario)
    (hiso : ∀ j, (hj : j < s.grader_feedback.length) →
      countOcc (graderAttr (s.grader_feedback.get ⟨j, hj⟩)).data (promptHeader s).data = 0 ∧
      countOcc (graderAttr (s.grader_feedback.get ⟨j, hj⟩)).data promptTail.data = 0 ∧
      countOcc (graderAttr (s.grader_feedback.get ⟨j, hj⟩)).data ("\n\n" : String).data = 0 ∧
      (∀ k, (hk : k < s.grader_feedback.length) →
        countOcc (graderAttr (s.grader_feedback.get ⟨j, hj⟩)).data
          (blockPre (1 + k)).data = 0 ∧
        countOcc (graderAttr (s.grader_feedback.get ⟨j, hj⟩)).data
          (blockPost (1 + k) (s.grader_feedback.get ⟨k, hk⟩)).data = 0) ∧
      (∀ k, (hk : k < s.grader_feedback.length) → k ≠ j →
        countOcc (graderAttr (s.grader_feedback.get ⟨j, hj⟩)).data
          (graderAttr (s.grader_feedback.get ⟨k, hk⟩)).data = 0) ∧
      noSpanAllTail (graderAttr (s.grader_feedback.get ⟨j, hj⟩)).data (promptPieces s)) :
    (∀ j, (hj : j < s.grader_feedback.length) →
      countOcc (graderAttr (s.grader_feedback.get ⟨j, hj⟩)).data (renderPrompt s).data = 1) ∧
    (∀ j j', (hj : j < s.grader_feedback.length) → (hj' : j' < s.grader_feedback.length) →
      j < j' →
      ∃ A B C, (renderPrompt s).data =
        A ++ (graderAttr (s.grader_feedback.get ⟨j, hj⟩)).data ++ B ++
          (graderAttr (s.grader_feedback.get ⟨j', hj'⟩)).data ++ C) ∧
    (∀ j, (hj : j < s.grader_feedback.length) →
      (fbJson (s.grader_feedback.get ⟨j, hj⟩).feedback).data <:+: (renderPrompt s).data) ∧
    (∀ j, (hj : j < s.grader_feedback.length) →
      ∀ it ∈ (s.grader_feedback.get ⟨j, hj⟩).feedback.strengths,
        (strengthJson it).data <:+: (renderPrompt s).data) ∧
    (∀ j, (hj : j < s.grader_feedback.length) →
      ∀ it ∈ (s.grader_feedback.get ⟨j, hj⟩).feedback.improvements,
        (improvementJson it).data <:+: (renderPrompt s).data) := by
  refine ⟨?_, ?_, ?_, ?_, ?_⟩
  · intro j hj
    obtain ⟨hh, ht, hsep, hglue, hother, hspan⟩ := hiso j hj
    have hp : (graderAttr (s.grader_feedback.get ⟨j, hj⟩)).data ≠ [] :=
      graderAttr_data_ne_nil _
    rw [renderPrompt_data, countOcc_flatten _ hp _ (noSpanAll_of_tail hspan)]
    simp only [promptPieces, List.map_cons, List.map_append, List.sum_cons,
      List.sum_append, List.sum_nil]
    rw [hh, ht,
      xmlPieces_count_one _ s.grader_feedback 1 j hj hglue hother
        (countOcc_self _ hp) hsep]
    simp
  · intro j j' hj hj' hjj
    have ha := promptPieces_attr_get s j hj
    have hb := promptPieces_attr_get s j' hj'
    obtain ⟨A, B, C, h⟩ := flatten_double_split _ _ (promptPieces s)
      (4 * j + 2) (4 * j' + 2) (by omega) ha hb
    rw [renderPrompt_data]
    exact ⟨A, B, C, h⟩
  · intro j hj
    exact fbJson_infix_prompt s j hj
  · intro j hj it hit
    exact (strengthJson_infix_fbJson _ it hit).trans (fbJson_infix_prompt s j hj)
  · intro j hj it hit
    exact (improvementJson_infix_fbJson _ it hit).trans (fbJson_infix_prompt s j hj)

/-- Two-grader fixture for the C7 witness. -/
def witG1 : GraderRecord :=
  ⟨"x-ai/grok-4", 92,
    ⟨[⟨"Thesis", "Strong thesis", "Clear claim"⟩],
     [⟨"Length", "Too short", "Expand body"⟩]⟩⟩

def witG2 : GraderRecord :=
  ⟨"openai/gpt-5.2", 90, ⟨[⟨"Tone", "Good tone", "Formal register"⟩], []⟩⟩

def witScenario : Scenario :=
  ⟨"wit", "Character Analysis", "An essay excerpt.", "Analysis 40 percent",
    [witG1, witG2]⟩

theorem C7_witness :
    (∀ j, (hj : j < witScenario.grader_feedback.length) →
      countOcc (graderAttr (witScenario.grader_feedback.get ⟨j, hj⟩)).data
        (renderPrompt witScenario).data = 1) ∧
    (∀ j j', (hj : j < witScenario.grader_feedback.length) →
      (hj' : j' < witScenario.grader_feedback.length) → j < j' →
      ∃ A B C, (renderPrompt witScenario).data =
        A ++ (graderAttr (witScenario.grader_feedback.get ⟨j, hj⟩)).data ++ B ++
          (graderAttr (witScenario.grader_feedback.get ⟨j', hj'⟩)).data ++ C) ∧
    (∀ j, (hj : j < witScenario.grader_feedback.length) →
      (fbJson (witScenario.grader_feedback.get ⟨j, hj⟩).feedback).data <:+:
        (renderPrompt witScenario).data) ∧
    (∀ j, (hj : j < witScenario.grader_feedback.length) →
      ∀ it ∈ (witScenario.grader_feedback.get ⟨j, hj⟩).feedback.strengths,
        (strengthJson it).data <:+: (renderPrompt witScenario).data) ∧
    (∀ j, (hj : j < witScenario.grader_feedback.length) →
      ∀ it ∈ (witScenario.grader_feedback.get ⟨j, hj⟩).feedback.improvements,
        (improvementJson it).data <:+: (renderPrompt witScenario).data) :=
  C7_prompt_contains_graders witScenario (by decide)

end MarkM8
